import Mathlib

/-!
Verification of the ManifestWorkReplicaSet controller
(`pkg/work/hub/controllers/manifestworkreplicasetcontroller/manifestworkreplicaset_controller.go`).

The development shallowly embeds the controller's data flow:

* `goSplit` embeds Go's `strings.Split` on a one-character separator;
* `splitMetaNamespaceKey` embeds `cache.SplitMetaNamespaceKey`;
* `manifestWorkOwnerQueueKey` embeds the queue-key closure installed with
  `WithFilteredEventsInformersQueueKeyFunc` (controller file, lines 93-103);
* `reconcileLoop` embeds the stage loop of `sync` (lines 162-172);
* `syncModel` embeds the body of `sync` (lines 141-184).

The four stage implementations (`finalizeReconciler`, `addFinalizerReconciler`,
`deployReconciler`, `statusReconciler`) and `patcher.PatchStatus` are repository
code whose files are not part of the analysed fragment; stages appear as opaque
function parameters, and `finalizeReconcile` / `patchStatusModel` are modelled
from the spec where a claim needs their behaviour.
-/

namespace OCM

/-- A Go error value.  The controller only threads errors through; their
content never influences control flow, so a message wrapper suffices. -/
structure GoError where
  msg : String
deriving DecidableEq, Repr

/-- Embeds Go's `strings.Split(s, sep)` for a one-character separator `sep`,
working on the character list of the string.  `strings.Split` of the empty
string yields `[""]`, and separators at the ends produce empty segments. -/
def goSplitChars (sep : Char) : List Char → List (List Char)
  | [] => [[]]
  | a :: rest =>
    let r := goSplitChars sep rest
    if a = sep then [] :: r
    else
      match r with
      | [] => [[a]]
      | h :: t => (a :: h) :: t

/-- `strings.Split` on `String`, via `goSplitChars`. -/
def goSplit (sep : Char) (s : String) : List String :=
  (goSplitChars sep s.toList).map List.asString

/-- Embeds `cache.SplitMetaNamespaceKey` (k8s.io/client-go/tools/cache):
one segment means a cluster-scoped name with empty namespace, two segments
mean `namespace/name`, anything else is an error (`none` here). -/
def splitMetaNamespaceKey (key : String) : Option (String × String) :=
  match goSplit '/' key with
  | [p] => some ("", p)
  | [p0, p1] => some (p0, p1)
  | _ => none

/-- The correlation label key, constant
`ManifestWorkReplicaSetControllerNameLabelKey` in the controller file. -/
def ManifestWorkReplicaSetControllerNameLabelKey : String :=
  "work.open-cluster-management.io/manifestworkreplicaset"

/-- The lifecycle-guard finalizer, constant `ManifestWorkReplicaSetFinalizer`
in the controller file. -/
def ManifestWorkReplicaSetFinalizer : String :=
  "work.open-cluster-management.io/manifest-work-cleanup"

/-- A delivery object (ManifestWork) as far as the controller file reads it:
only its label map matters for queue-key derivation.  The label map is an
association list; lookup takes the first binding, as a Go map has at most
one binding per key. -/
structure ManifestWork where
  labels : List (String × String)
deriving DecidableEq, Repr

/-- Embeds `accessor.GetLabels()[k]` together with its `ok` flag:
`some v` when the label is present with value `v`, `none` when absent. -/
def ManifestWork.getLabel (w : ManifestWork) (k : String) : Option String :=
  (w.labels.find? (fun p => p.fst = k)).map Prod.snd

/-- Embeds the queue-key closure installed with
`WithFilteredEventsInformersQueueKeyFunc` (lines 93-103): read the
correlation label; absent means no key (the empty string); split the value
on `.`; a split with other than two segments means no key; otherwise the
key is `segment0/segment1`. -/
def manifestWorkOwnerQueueKey (obj : ManifestWork) : String :=
  match obj.getLabel ManifestWorkReplicaSetControllerNameLabelKey with
  | none => ""
  | some labelValue =>
    match goSplit '.' labelValue with
    | [k0, k1] => k0 ++ "/" ++ k1
    | _ => ""

/-- The `reconcileState` enumeration of the controller file
(`reconcileStop`, `reconcileContinue`). -/
inductive reconcileState
  | reconcileStop
  | reconcileContinue
deriving DecidableEq, Repr

export reconcileState (reconcileStop reconcileContinue)

/-- A `ManifestWorkReplicaSet`, abstracted over its spec type `σ` and status
type `τ` (both live in the external API module; the controller file only
reads `.Status` and the object metadata). -/
structure MWRS (σ τ : Type) where
  metaNamespace : String
  metaName : String
  deletionTimestamp : Option String
  finalizers : List String
  spec : σ
  status : τ
deriving DecidableEq, Repr

/-- Go's generated `DeepCopy` returns an independent object with the same
contents; under the value semantics of this embedding that is the identity
on the value. -/
def MWRS.deepCopy {σ τ : Type} (m : MWRS σ τ) : MWRS σ τ := m

/-- The `ManifestWorkReplicaSetReconcile` capability: one stage of the
pipeline, `reconcile(ctx, pw) -> (pw, state, err)`.  The context and the
stage's private clients are absorbed into the function value. -/
def Stage (σ τ : Type) : Type :=
  MWRS σ τ → MWRS σ τ × reconcileState × Option GoError

/-- Trace of one run of the stage loop of `sync` (lines 162-172): the object
as left by the last executed stage, the stage errors in execution order, and
the `reconcileState` signal of each executed stage in order. -/
structure LoopResult (σ τ : Type) where
  obj : MWRS σ τ
  errs : List GoError
  signals : List reconcileState
deriving Repr

/-- Embeds the stage loop of `sync`: run each reconciler in order on the
threaded object, append a returned non-nil error to `errs`, and break out of
the loop exactly when a stage returns `reconcileStop`. -/
def reconcileLoop {σ τ : Type} : List (Stage σ τ) → MWRS σ τ → LoopResult σ τ
  | [], m => ⟨m, [], []⟩
  | r :: rest, m =>
    let res := r m
    match res.2.1 with
    | reconcileStop => ⟨res.1, res.2.2.toList, [reconcileStop]⟩
    | reconcileContinue =>
      let tail := reconcileLoop rest res.1
      ⟨tail.obj, res.2.2.toList ++ tail.errs, reconcileContinue :: tail.signals⟩

/-- Embeds `utilerrors.NewAggregate`: `nil` on an empty error list, otherwise
an aggregate holding every error in order.  (The Go function also drops `nil`
entries; the embedding never inserts one.) -/
def newAggregate (errs : List GoError) : Option (List GoError) :=
  if errs.isEmpty then none else some errs

/-- Modelled from the spec: `patcher.PatchStatus` of `pkg/common/patcher`,
whose file is not part of the analysed fragment.  Per the spec it persists
"only the status sub-resource if it differs from what was loaded" as "a
minimal patch containing exactly the delta between previous and newly
computed status, to avoid unnecessary writes": equal statuses mean no write
and no error; different statuses mean one status patch is issued, whose
outcome `apiErr` is the external API server's response. -/
def patchStatusModel {τ : Type} [DecidableEq τ] (newStatus oldStatus : τ)
    (apiErr : Option GoError) : Bool × Option GoError :=
  if newStatus = oldStatus then (false, none) else (true, apiErr)

/-- Result of the lister `Get` in `sync` (line 152): the object, a not-found
error, or any other error. -/
inductive GetResult (σ τ : Type)
  | found (m : MWRS σ τ)
  | notFound
  | failed (e : GoError)
deriving DecidableEq, Repr

/-- A write issued by the `sync` body directly against the owning
ManifestWorkReplicaSet.  Constructors other than the status patch exist so
that "the only direct write is a status patch" is a statement with content. -/
inductive DirectWrite (τ : Type)
  | patchStatusOp (newStatus oldStatus : τ)
  | updateObj
  | deleteObj
deriving DecidableEq, Repr

/-- The controller state that `sync` consults: the reconciler list fixed at
construction, the lister, and the external API's response to an issued
status patch (a function of the patch contents). -/
structure SyncEnv (σ τ : Type) where
  reconcilers : List (Stage σ τ)
  listerGet : String → String → GetResult σ τ
  patchFail : τ → τ → Option GoError

/-- Embeds `newController` (lines 119-138): the controller is built with the
fixed reconciler list finalize, add-finalizer, deploy, status, in that
order.  The four stage implementations live outside the analysed fragment
and are passed in. -/
def newController {σ τ : Type} (finalizeR addFinalizerR deployR statusR : Stage σ τ)
    (listerGet : String → String → GetResult σ τ)
    (patchFail : τ → τ → Option GoError) : SyncEnv σ τ :=
  { reconcilers := [finalizeR, addFinalizerR, deployR, statusR]
    listerGet := listerGet
    patchFail := patchFail }

/-- Trace of one `sync` pass: the signal of every executed stage in order,
the object handed to the first stage, the status the patch decision compares
the newly computed status against, the number of `PatchStatus` calls, the
direct writes issued against the ManifestWorkReplicaSet, and the error
`sync` returns (`none` is Go's `nil`). -/
structure SyncTrace (σ τ : Type) where
  signals : List reconcileState
  pipelineInput : Option (MWRS σ τ)
  comparedOld : Option τ
  patchAttempts : Nat
  directWrites : List (DirectWrite τ)
  retErr : Option (List GoError)

/-- Embeds the body of `sync` (lines 141-184): split the queue key, ignoring
a malformed one; load the object, ignoring not-found and returning any other
lister error; deep-copy the loaded object; run the stage loop; then call
`PatchStatus` with the newly computed status and the status of the object as
loaded, appending its error; return the aggregate of all collected errors. -/
def syncModel {σ τ : Type} [DecidableEq τ] (env : SyncEnv σ τ) (key : String) :
    SyncTrace σ τ :=
  match splitMetaNamespaceKey key with
  | none =>
    ⟨[], none, none, 0, [], none⟩
  | some (ns, name) =>
    match env.listerGet ns name with
    | GetResult.notFound => ⟨[], none, none, 0, [], none⟩
    | GetResult.failed e => ⟨[], none, none, 0, [], some [e]⟩
    | GetResult.found old =>
      let lr := reconcileLoop env.reconcilers old.deepCopy
      let pr := patchStatusModel lr.obj.status old.status
        (env.patchFail lr.obj.status old.status)
      { signals := lr.signals
        pipelineInput := some old.deepCopy
        comparedOld := some old.status
        patchAttempts := 1
        directWrites :=
          if pr.1 then [DirectWrite.patchStatusOp lr.obj.status old.status] else []
        retErr := newAggregate (lr.errs ++ pr.2.toList) }

/-- Modelled from the spec: the Finalize stage (`finalizeReconciler.reconcile`,
whose file is not part of the analysed fragment; `newController` installs it
first).  Spec §4.4: without a deletion timestamp, continue; with one, list
the correlated delivery objects; with zero remaining, remove the lifecycle
guard (the finalizer) and signal stop; with some remaining, issue best-effort
deletes, keep the guard, signal stop and surface the collected delete
failures.  `works` is the listing result and `deleteErr` the aggregated
outcome of the issued deletes. -/
def finalizeReconcile {σ τ : Type} (works : List ManifestWork)
    (deleteErr : Option GoError) (m : MWRS σ τ) :
    MWRS σ τ × reconcileState × Option GoError :=
  if m.deletionTimestamp = none then
    (m, reconcileContinue, none)
  else if works.isEmpty then
    ({ m with finalizers :=
        m.finalizers.filter (fun f => f ≠ ManifestWorkReplicaSetFinalizer) },
     reconcileStop, none)
  else
    (m, reconcileStop, deleteErr)

/-! ### Concrete fixtures

Small concrete stages, an object and an environment, instantiated at
`σ := Unit`, `τ := Nat`.  They exercise the definitions above on closed
inputs. -/

/-- A stage that bumps the status and continues without error. -/
def demoStage : Stage Unit Nat :=
  fun m => ({ m with status := m.status + 1 }, reconcileContinue, none)

/-- A stage that fails (non-nil error) but signals `reconcileContinue`. -/
def demoErrStage : Stage Unit Nat :=
  fun m => (m, reconcileContinue, some ⟨"boom"⟩)

/-- A stage that signals `reconcileStop` without error. -/
def demoStopStage : Stage Unit Nat :=
  fun m => (m, reconcileStop, none)

/-- A concrete ManifestWorkReplicaSet at `ns/n`. -/
def demoMWRS : MWRS Unit Nat :=
  { metaNamespace := "ns", metaName := "n", deletionTimestamp := none,
    finalizers := [ManifestWorkReplicaSetFinalizer], spec := (), status := 0 }

/-- A lister holding exactly `demoMWRS` under `ns/n`. -/
def demoLister : String → String → GetResult Unit Nat :=
  fun ns name =>
    if ns = "ns" ∧ name = "n" then GetResult.found demoMWRS else GetResult.notFound

/-- A controller over the demo lister whose four stages all continue. -/
def demoEnv : SyncEnv Unit Nat :=
  newController demoStage demoStage demoStage demoStage demoLister (fun _ _ => none)

/-- A controller whose first stage signals `reconcileStop`. -/
def demoStopEnv : SyncEnv Unit Nat :=
  newController demoStopStage demoStage demoStage demoStage demoLister
    (fun _ _ => none)

/-- A controller whose first stage errors but signals `reconcileContinue`. -/
def demoErrEnv : SyncEnv Unit Nat :=
  newController demoErrStage demoStage demoStage demoStage demoLister
    (fun _ _ => none)

/-! ### Helper lemmas about the stage loop -/

/-- Every signal in a loop trace except possibly the last one is
`reconcileContinue`: the loop only ever goes on past a stage that returned
`reconcileContinue`. -/
theorem reconcileLoop_signals_init_continue {σ τ : Type}
    (stages : List (Stage σ τ)) (m : MWRS σ τ) :
    ∀ j, j + 1 < (reconcileLoop stages m).signals.length →
      (reconcileLoop stages m).signals.getD j reconcileStop
        = reconcileContinue := by
  induction stages generalizing m with
  | nil => intro j h; simp [reconcileLoop] at h
  | cons r rest ih =>
    intro j h
    rcases hs : (r m).2.1 with _ | _
    · simp [reconcileLoop, hs] at h
    · rcases j with _ | j
      · simp [reconcileLoop, hs]
      · have h' : j + 1 < (reconcileLoop rest (r m).1).signals.length := by
          simp [reconcileLoop, hs] at h
          omega
        have := ih (r m).1 j h'
        simpa [reconcileLoop, hs] using this

/-- A sync pass either runs no stage at all, or runs the stage loop on the
deep copy of some loaded object; its signal trace is the loop's. -/
theorem syncModel_signals_cases {σ τ : Type} [DecidableEq τ]
    (env : SyncEnv σ τ) (key : String) :
    (syncModel env key).signals = [] ∨
    ∃ old, (syncModel env key).signals
        = (reconcileLoop env.reconcilers (MWRS.deepCopy old)).signals := by
  unfold syncModel
  rcases hsp : splitMetaNamespaceKey key with _ | ⟨ns, name⟩ <;>
    simp only [hsp]
  · left; trivial
  · rcases hg : env.listerGet ns name with old | _ | e <;> simp only [hg]
    · right; exact ⟨old, rfl⟩
    · left; trivial
    · left; trivial

/-- The loop executes at most as many stages as the list holds. -/
theorem reconcileLoop_signals_length_le {σ τ : Type}
    (stages : List (Stage σ τ)) (m : MWRS σ τ) :
    (reconcileLoop stages m).signals.length ≤ stages.length := by
  induction stages generalizing m with
  | nil => simp [reconcileLoop]
  | cons r rest ih =>
    rcases hs : (r m).2.1 with _ | _
    · simp [reconcileLoop, hs]
    · simpa [reconcileLoop, hs, Nat.succ_le_succ_iff] using ih (r m).1

/-! ### Claim theorems -/

/-- Claim C1: in the stage loop of `sync`, a stage that returns a non-nil
error but signals `reconcileContinue` does not halt the chain — the loop
proceeds through every remaining stage exactly as it would run them on the
stage's output, with the error recorded in front of theirs — while a stage
that signals `reconcileStop` cuts the chain short there. -/
theorem stage_error_does_not_halt_chain {σ τ : Type} (r : Stage σ τ)
    (rest : List (Stage σ τ)) (m : MWRS σ τ) :
    (∀ e, (r m).2.1 = reconcileContinue → (r m).2.2 = some e →
        (reconcileLoop (r :: rest) m).signals
            = reconcileContinue :: (reconcileLoop rest (r m).1).signals ∧
        (reconcileLoop (r :: rest) m).errs
            = e :: (reconcileLoop rest (r m).1).errs ∧
        (reconcileLoop (r :: rest) m).obj = (reconcileLoop rest (r m).1).obj) ∧
    ((r m).2.1 = reconcileStop →
        (reconcileLoop (r :: rest) m).signals = [reconcileStop]) := by
  constructor
  · intro e hc he
    refine ⟨?_, ?_, ?_⟩ <;> simp [reconcileLoop, hc, he]
  · intro hs
    simp [reconcileLoop, hs]

/-- Witness for C1: a concrete erroring-but-continuing stage followed by one
more stage; the second stage still runs, and a concrete stopping stage cuts
the chain. -/
theorem stage_error_does_not_halt_chain_witness :
    ((reconcileLoop [demoErrStage, demoStage] demoMWRS).signals
        = reconcileContinue
            :: (reconcileLoop [demoStage] (demoErrStage demoMWRS).1).signals ∧
      (reconcileLoop [demoErrStage, demoStage] demoMWRS).errs
        = GoError.mk "boom"
            :: (reconcileLoop [demoStage] (demoErrStage demoMWRS).1).errs ∧
      (reconcileLoop [demoErrStage, demoStage] demoMWRS).obj
        = (reconcileLoop [demoStage] (demoErrStage demoMWRS).1).obj) ∧
    (reconcileLoop [demoStopStage, demoStage] demoMWRS).signals
        = [reconcileStop] :=
  ⟨(stage_error_does_not_halt_chain demoErrStage [demoStage] demoMWRS).1
      ⟨"boom"⟩ (by decide) (by decide),
   (stage_error_does_not_halt_chain demoStopStage [demoStage] demoMWRS).2
      (by decide)⟩

/-- Claim C3 (stage modelled from the spec): on a ManifestWorkReplicaSet
whose deletion timestamp is set and for which the listing of correlated
delivery objects is empty, the Finalize stage signals `reconcileStop`,
removes the lifecycle guard `ManifestWorkReplicaSetFinalizer`, and removes
nothing else from the finalizer list. -/
theorem finalize_zero_works_removes_guard_and_stops {σ τ : Type}
    (works : List ManifestWork) (deleteErr : Option GoError) (m : MWRS σ τ)
    (hdel : m.deletionTimestamp ≠ none) (hzero : works = []) :
    (finalizeReconcile works deleteErr m).2.1 = reconcileStop ∧
    ManifestWorkReplicaSetFinalizer
        ∉ (finalizeReconcile works deleteErr m).1.finalizers ∧
    ∀ f ∈ m.finalizers, f ≠ ManifestWorkReplicaSetFinalizer →
        f ∈ (finalizeReconcile works deleteErr m).1.finalizers := by
  subst hzero
  refine ⟨?_, ?_, ?_⟩
  · simp [finalizeReconcile, hdel]
  · simp [finalizeReconcile, hdel, List.mem_filter]
  · intro f hf hne
    simp [finalizeReconcile, hdel, List.mem_filter]
    exact ⟨hf, hne⟩

/-- Witness for C3: a deleting object carrying the guard and an empty
listing; the guard is removed and the stage stops. -/
theorem finalize_zero_works_removes_guard_and_stops_witness :
    (finalizeReconcile [] none
        { demoMWRS with deletionTimestamp := some "t" }).2.1 = reconcileStop ∧
    ManifestWorkReplicaSetFinalizer
        ∉ (finalizeReconcile ([] : List ManifestWork) (none : Option GoError)
            { demoMWRS with deletionTimestamp := some "t" }).1.finalizers ∧
    ∀ f ∈ ({ demoMWRS with
        deletionTimestamp := some "t" } : MWRS Unit Nat).finalizers,
      f ≠ ManifestWorkReplicaSetFinalizer →
        f ∈ (finalizeReconcile ([] : List ManifestWork) (none : Option GoError)
            { demoMWRS with deletionTimestamp := some "t" }).1.finalizers :=
  finalize_zero_works_removes_guard_and_stops [] none
    { demoMWRS with deletionTimestamp := some "t" } (by decide) rfl

/-- Claim C4: `newController` fixes the stage list at construction as
finalize, add-finalizer, deploy, status in that order; on a sync pass at
most those four stages run, and every executed stage other than the last
executed one signalled `reconcileContinue` — so a stage runs only when all
earlier stages returned continue, and Status, when it runs, runs last. -/
theorem pipeline_order_fixed_and_gated {σ τ : Type} [DecidableEq τ]
    (finalizeR addFinalizerR deployR statusR : Stage σ τ)
    (listerGet : String → String → GetResult σ τ)
    (patchFail : τ → τ → Option GoError) (key : String) :
    (newController finalizeR addFinalizerR deployR statusR
        listerGet patchFail).reconcilers
        = [finalizeR, addFinalizerR, deployR, statusR] ∧
    (syncModel (newController finalizeR addFinalizerR deployR statusR
        listerGet patchFail) key).signals.length ≤ 4 ∧
    ∀ j, j + 1 < (syncModel (newController finalizeR addFinalizerR deployR
        statusR listerGet patchFail) key).signals.length →
      (syncModel (newController finalizeR addFinalizerR deployR statusR
          listerGet patchFail) key).signals.getD j reconcileStop
        = reconcileContinue := by
  refine ⟨rfl, ?_, ?_⟩
  · rcases syncModel_signals_cases (newController finalizeR addFinalizerR
        deployR statusR listerGet patchFail) key with h | ⟨old, h⟩
    · simp [h]
    · rw [h]
      simpa [newController] using reconcileLoop_signals_length_le
        (newController finalizeR addFinalizerR deployR statusR
          listerGet patchFail).reconcilers (MWRS.deepCopy old)
  · rcases syncModel_signals_cases (newController finalizeR addFinalizerR
        deployR statusR listerGet patchFail) key with h | ⟨old, h⟩
    · intro j hj
      rw [h] at hj
      simp at hj
    · intro j hj
      rw [h] at hj ⊢
      exact reconcileLoop_signals_init_continue _ _ j hj

/-- Witness for C4: the demo controller's four all-continue stages at key
`ns/n`; the third executed stage (index 2, not the last one) signalled
continue. -/
theorem pipeline_order_fixed_and_gated_witness :
    demoEnv.reconcilers = [demoStage, demoStage, demoStage, demoStage] ∧
    (syncModel demoEnv "ns/n").signals.length ≤ 4 ∧
    (syncModel demoEnv "ns/n").signals.getD 2 reconcileStop
        = reconcileContinue :=
  ⟨(pipeline_order_fixed_and_gated demoStage demoStage demoStage demoStage
      demoLister (fun _ _ => none) "ns/n").1,
   (pipeline_order_fixed_and_gated demoStage demoStage demoStage demoStage
      demoLister (fun _ _ => none) "ns/n").2.1,
   (pipeline_order_fixed_and_gated demoStage demoStage demoStage demoStage
      demoLister (fun _ _ => none) "ns/n").2.2 2 (by decide)⟩

/-- Claim C2 fails as stated: the derivation never checks that the two
dot-separated segments are non-empty.  A delivery object whose correlation
label value is `a.` — whose second segment is empty, so not two non-empty
segments — still yields the key `a/` instead of no key (the empty string). -/
theorem ownerKey_nonempty_segments_not_enforced :
    (ManifestWork.mk [(ManifestWorkReplicaSetControllerNameLabelKey,
        "a.")]).getLabel ManifestWorkReplicaSetControllerNameLabelKey
      = some "a." ∧
    goSplit '.' "a." = ["a", ""] ∧
    manifestWorkOwnerQueueKey
        (ManifestWork.mk [(ManifestWorkReplicaSetControllerNameLabelKey, "a.")])
      = "a/" ∧
    "a/" ≠ "" := by
  decide

/-- Claim C2 (amended): the owner-key derivation is a total function that
returns no key (the empty string) when the correlation label is absent,
returns no key when the label value does not split on `.` into exactly two
segments (the segments are not required to be non-empty), and otherwise
returns `segment0/segment1`. -/
theorem ownerKey_from_child_characterization (w : ManifestWork) :
    (w.getLabel ManifestWorkReplicaSetControllerNameLabelKey = none →
        manifestWorkOwnerQueueKey w = "") ∧
    ∀ v, w.getLabel ManifestWorkReplicaSetControllerNameLabelKey = some v →
      (∀ k0 k1, goSplit '.' v = [k0, k1] →
          manifestWorkOwnerQueueKey w = k0 ++ "/" ++ k1) ∧
      ((goSplit '.' v).length ≠ 2 → manifestWorkOwnerQueueKey w = "") := by
  constructor
  · intro h
    simp [manifestWorkOwnerQueueKey, h]
  · intro v hv
    constructor
    · intro k0 k1 hsplit
      simp [manifestWorkOwnerQueueKey, hv, hsplit]
    · intro hlen
      rcases hs : goSplit '.' v with _ | ⟨a, _ | ⟨b, _ | ⟨c, t⟩⟩⟩
      · simp [manifestWorkOwnerQueueKey, hv, hs]
      · simp [manifestWorkOwnerQueueKey, hv, hs]
      · rw [hs] at hlen
        simp at hlen
      · simp [manifestWorkOwnerQueueKey, hv, hs]

/-- Witness for the amended C2: a delivery object labeled `ns.name` yields
the key `ns/name`. -/
theorem ownerKey_from_child_characterization_witness :
    manifestWorkOwnerQueueKey
        (ManifestWork.mk
          [(ManifestWorkReplicaSetControllerNameLabelKey, "ns.name")])
      = "ns" ++ "/" ++ "name" :=
  ((ownerKey_from_child_characterization
      (ManifestWork.mk
        [(ManifestWorkReplicaSetControllerNameLabelKey, "ns.name")])).2
    "ns.name" (by decide)).1 "ns" "name" (by decide)

/-- Claim C5: on a pass whose object is found, the only direct write `sync`
issues against the ManifestWorkReplicaSet is a status patch; it is issued
exactly when the newly computed status differs from the status loaded at the
start of the pass, and no write at all happens when they are equal. -/
theorem status_patch_only_on_change {σ τ : Type} [DecidableEq τ]
    (env : SyncEnv σ τ) (key ns name : String) (old : MWRS σ τ)
    (hk : splitMetaNamespaceKey key = some (ns, name))
    (hg : env.listerGet ns name = GetResult.found old) :
    ((reconcileLoop env.reconcilers (MWRS.deepCopy old)).obj.status
          = old.status →
        (syncModel env key).directWrites = []) ∧
    ((reconcileLoop env.reconcilers (MWRS.deepCopy old)).obj.status
          ≠ old.status →
        (syncModel env key).directWrites
          = [DirectWrite.patchStatusOp
              (reconcileLoop env.reconcilers (MWRS.deepCopy old)).obj.status
              old.status]) ∧
    ∀ w ∈ (syncModel env key).directWrites,
      ∃ nst ost, w = DirectWrite.patchStatusOp nst ost := by
  unfold syncModel
  simp only [hk, hg]
  refine ⟨?_, ?_, ?_⟩
  · intro heq
    simp [patchStatusModel, heq]
  · intro hne
    simp [patchStatusModel, hne]
  · intro w hw
    by_cases heq : (reconcileLoop env.reconcilers
        (MWRS.deepCopy old)).obj.status = old.status
    · simp [patchStatusModel, heq] at hw
    · simp [patchStatusModel, heq] at hw
      exact ⟨_, _, hw⟩

/-- Witness for C5: the demo stages bump the status from 0 to 4, so the pass
issues exactly the one status patch. -/
theorem status_patch_only_on_change_witness :
    (syncModel demoEnv "ns/n").directWrites
      = [DirectWrite.patchStatusOp
          (reconcileLoop demoEnv.reconcilers (MWRS.deepCopy demoMWRS)).obj.status
          demoMWRS.status] :=
  (status_patch_only_on_change demoEnv "ns/n" "ns" "n" demoMWRS
      (by decide) (by decide)).2.1 (by decide)

/-- Claim C6: on a pass whose object is found, `sync` returns the aggregate
of every error of the pass — the errors of the executed stages in execution
order, followed by the status-patch error if the patch failed — and the
return is nil exactly when no executed stage and no status patch erred. -/
theorem sync_error_aggregation {σ τ : Type} [DecidableEq τ]
    (env : SyncEnv σ τ) (key ns name : String) (old : MWRS σ τ)
    (lr : LoopResult σ τ) (pe : Option GoError)
    (hk : splitMetaNamespaceKey key = some (ns, name))
    (hg : env.listerGet ns name = GetResult.found old)
    (hlr : reconcileLoop env.reconcilers (MWRS.deepCopy old) = lr)
    (hpe : (patchStatusModel lr.obj.status old.status
        (env.patchFail lr.obj.status old.status)).2 = pe) :
    (syncModel env key).retErr = newAggregate (lr.errs ++ pe.toList) ∧
    ((syncModel env key).retErr = none ↔ lr.errs = [] ∧ pe = none) ∧
    ∀ l, (syncModel env key).retErr = some l → l = lr.errs ++ pe.toList := by
  subst hpe
  have hret : (syncModel env key).retErr
      = newAggregate (lr.errs ++ (patchStatusModel lr.obj.status old.status
          (env.patchFail lr.obj.status old.status)).2.toList) := by
    unfold syncModel
    simp only [hk, hg, hlr]
  refine ⟨hret, ?_, ?_⟩
  · rw [hret]
    unfold newAggregate
    rcases hp : (patchStatusModel lr.obj.status old.status
        (env.patchFail lr.obj.status old.status)).2 with _ | e <;>
      simp [List.isEmpty_iff]
  · intro l hl
    rw [hret] at hl
    unfold newAggregate at hl
    by_cases he : (lr.errs ++ (patchStatusModel lr.obj.status old.status
        (env.patchFail lr.obj.status old.status)).2.toList).isEmpty
    · rw [if_pos he] at hl
      exact absurd hl (by simp)
    · rw [if_neg he] at hl
      exact (Option.some_injective _ hl).symm

/-- Witness for C6: the demo erroring stage contributes its error, the patch
succeeds, and `sync` returns the aggregate holding exactly that error. -/
theorem sync_error_aggregation_witness :
    (syncModel demoErrEnv "ns/n").retErr
      = newAggregate ((reconcileLoop demoErrEnv.reconcilers
          (MWRS.deepCopy demoMWRS)).errs ++ (none : Option GoError).toList) :=
  (sync_error_aggregation demoErrEnv "ns/n" "ns" "n" demoMWRS
      (reconcileLoop demoErrEnv.reconcilers (MWRS.deepCopy demoMWRS)) none
      (by decide) (by decide) rfl (by decide)).1

/-- Claim C7: on a pass whose object is not found, `sync` returns nil, runs
no stage, attempts no status patch and issues no write. -/
theorem sync_not_found_is_benign {σ τ : Type} [DecidableEq τ]
    (env : SyncEnv σ τ) (key ns name : String)
    (hk : splitMetaNamespaceKey key = some (ns, name))
    (hg : env.listerGet ns name = GetResult.notFound) :
    (syncModel env key).retErr = none ∧
    (syncModel env key).signals = [] ∧
    (syncModel env key).patchAttempts = 0 ∧
    (syncModel env key).directWrites = [] := by
  unfold syncModel
  simp only [hk, hg]
  exact ⟨trivial, trivial, trivial, trivial⟩

/-- Witness for C7: the demo lister holds nothing at `ns/x`, so that pass is
a silent no-op. -/
theorem sync_not_found_is_benign_witness :
    (syncModel demoEnv "ns/x").retErr = none ∧
    (syncModel demoEnv "ns/x").signals = [] ∧
    (syncModel demoEnv "ns/x").patchAttempts = 0 ∧
    (syncModel demoEnv "ns/x").directWrites = [] :=
  sync_not_found_is_benign demoEnv "ns/x" "ns" "x" (by decide) (by decide)

/-- Claim C8: on a queue key that `SplitMetaNamespaceKey` rejects (not of
the `namespace/name` shape), `sync` returns nil — so the key is not
retried — and runs no stage, attempts no patch and issues no write. -/
theorem sync_malformed_key_ignored {σ τ : Type} [DecidableEq τ]
    (env : SyncEnv σ τ) (key : String)
    (hk : splitMetaNamespaceKey key = none) :
    (syncModel env key).retErr = none ∧
    (syncModel env key).signals = [] ∧
    (syncModel env key).patchAttempts = 0 ∧
    (syncModel env key).directWrites = [] := by
  unfold syncModel
  simp only [hk]
  exact ⟨trivial, trivial, trivial, trivial⟩

/-- Witness for C8: the key `a/b/c` has too many segments and the pass is a
silent no-op. -/
theorem sync_malformed_key_ignored_witness :
    (syncModel demoEnv "a/b/c").retErr = none ∧
    (syncModel demoEnv "a/b/c").signals = [] ∧
    (syncModel demoEnv "a/b/c").patchAttempts = 0 ∧
    (syncModel demoEnv "a/b/c").directWrites = [] :=
  sync_malformed_key_ignored demoEnv "a/b/c" (by decide)

/-- Claim C9: on a pass whose object is found, the status patch is attempted
exactly once after the stage loop, whatever the stages signalled or
erred — the `env` here is arbitrary, covering stop signals and errors. -/
theorem status_patch_attempted_exactly_once {σ τ : Type} [DecidableEq τ]
    (env : SyncEnv σ τ) (key ns name : String) (old : MWRS σ τ)
    (hk : splitMetaNamespaceKey key = some (ns, name))
    (hg : env.listerGet ns name = GetResult.found old) :
    (syncModel env key).patchAttempts = 1 := by
  unfold syncModel
  simp only [hk, hg]

/-- Witness for C9: the first demo stage stops the chain at once, and the
status patch is still attempted exactly once. -/
theorem status_patch_attempted_exactly_once_witness :
    (syncModel demoStopEnv "ns/n").patchAttempts = 1 :=
  status_patch_attempted_exactly_once demoStopEnv "ns/n" "ns" "n" demoMWRS
    (by decide) (by decide)

/-- Claim C10: on a pass whose object is found, the stage chain runs on the
deep copy of the loaded object (which, the copy being fresh, leaves the
loaded value untouched), and the patch decision compares the newly computed
status against the status of the object as originally loaded — every issued
write patches against exactly that status. -/
theorem loaded_object_not_mutated {σ τ : Type} [DecidableEq τ]
    (env : SyncEnv σ τ) (key ns name : String) (old : MWRS σ τ)
    (hk : splitMetaNamespaceKey key = some (ns, name))
    (hg : env.listerGet ns name = GetResult.found old) :
    (syncModel env key).pipelineInput = some (MWRS.deepCopy old) ∧
    MWRS.deepCopy old = old ∧
    (syncModel env key).comparedOld = some old.status ∧
    ∀ w ∈ (syncModel env key).directWrites,
      ∃ nst, w = DirectWrite.patchStatusOp nst old.status := by
  unfold syncModel
  simp only [hk, hg]
  refine ⟨trivial, rfl, trivial, ?_⟩
  intro w hw
  by_cases heq : (reconcileLoop env.reconcilers
      (MWRS.deepCopy old)).obj.status = old.status
  · simp [patchStatusModel, heq] at hw
  · simp [patchStatusModel, heq] at hw
    exact ⟨_, hw⟩

/-- Witness for C10: on the demo pass the pipeline input is the loaded
object's copy, the comparison status is the loaded 0, and the one issued
write patches against it. -/
theorem loaded_object_not_mutated_witness :
    (syncModel demoEnv "ns/n").pipelineInput = some (MWRS.deepCopy demoMWRS) ∧
    MWRS.deepCopy demoMWRS = demoMWRS ∧
    (syncModel demoEnv "ns/n").comparedOld = some demoMWRS.status ∧
    ∃ nst, DirectWrite.patchStatusOp 4 0
        = DirectWrite.patchStatusOp nst demoMWRS.status :=
  have h := loaded_object_not_mutated demoEnv "ns/n" "ns" "n" demoMWRS
    (by decide) (by decide)
  ⟨h.1, h.2.1, h.2.2.1,
   h.2.2.2 (DirectWrite.patchStatusOp 4 0) (by decide)⟩

end OCM
